import Mathlib

/-!
Shallow embedding of the SSA node module of the noir middle-end
(`crates/noirc_evaluator/src/ssa/node.rs`) and of the `ArrayProd` builtin
(`noir_evaluator/src/builtin/arrayprod.rs`), together with theorems settling
the specification claims about constant folding, phi simplification, operand
rewriting, canonicalization and `from_ast` lowering.

Machine integers are modelled as `Nat` with explicit reductions: `u128`
arithmetic wraps modulo `2^128` and shift amounts are masked modulo 128
(release-mode semantics of the compiled program); the prime-field element
type is a canonical representative `< p`.  Rust panics (`todo!`,
`unimplemented!`, `unreachable!`, failed `assert!`, division by zero) are
modelled by an explicit `panicked` outcome, distinct from the structured
`Result::Err` channel.
-/

/-- Arena index for nodes (`NodeId` wraps `arena::Index`); the derived order
on indices is modelled by the order on `Nat`. -/
abbrev NodeId := Nat

/-- Modelled from the spec: `dummy_id()` is a distinguished constant id that
never aliases a live node (`SsaContext::dummy_id` lives in `context.rs`,
which is not part of the sources). -/
def NodeId.dummy : NodeId := 0

abbrev BlockId := Nat
abbrev ArrayId := Nat
abbrev FuncId := Nat
abbrev DefinitionId := Nat
abbrev AssumptionId := Nat
abbrev Location := Nat
/-- Backend intrinsic opcode (`acvm::acir::OPCODE`), opaque to the core. -/
abbrev OPCODE := Nat

/-- Order of the scalar field backing `FieldElement` (BN254). -/
def fieldOrder : Nat :=
  21888242871839275222246405745257275088548364400416034343698204186575808495617

/-- `2^128`, the modulus of Rust's `u128`. -/
def u128Mod : Nat := 2 ^ 128

/-- `FieldElement::max_num_bits()` for the BN254 scalar field. -/
def fieldMaxNumBits : Nat := 254

/-- `ObjectType` from `node.rs`. -/
inductive ObjectType where
  | NativeField
  | Boolean
  | Unsigned (bits : Nat)
  | Signed (bits : Nat)
  | Pointer (a : ArrayId)
  | NotAnObject
deriving DecidableEq, Repr

/-- `ObjectType::bits`. -/
def ObjectType.bits : ObjectType → Nat
  | .Boolean => 1
  | .NativeField => fieldMaxNumBits
  | .NotAnObject => 0
  | .Signed c => c
  | .Unsigned c => c
  | .Pointer _ => 0

/-- `FieldElement::to_u128`: the canonical representative truncated to 128 bits. -/
def fieldToU128 (v : Nat) : Nat := v % u128Mod

/-- `ObjectType::field_to_type`.  `none` models a Rust panic: the
`unreachable!()` on `NotAnObject`/`Pointer`, the `todo!()` on `Signed`, and
the failed `assert!(self.bits() < 128)` on wide fixed-width types. -/
def ObjectType.field_to_type : ObjectType → Nat → Option Nat
  | .NotAnObject, _ => none
  | .Pointer _, _ => none
  | .NativeField, f => some f
  | .Signed _, _ => none
  | t, f => if t.bits < 128 then some (fieldToU128 f % 2 ^ t.bits) else none

/-- `NodeEval` from `node.rs`; the constant payload is the canonical field
representative. -/
inductive NodeEval where
  | Const (v : Nat) (t : ObjectType)
  | VarOrInstruction (id : NodeId)
deriving DecidableEq, Repr

/-- `NodeEval::into_const_value`. -/
def NodeEval.into_const_value : NodeEval → Option Nat
  | .Const c _ => some c
  | .VarOrInstruction _ => none

/-- The node data visible through the context: a `Variable`'s `obj_type`, an
`Instruction`'s `res_type`, or a `Constant`'s `(value, value_type)`; this is
the projection of `NodeObj` that `get_type`/`size_in_bits`/`from_id` read. -/
inductive NodeObjM where
  | obj (t : ObjectType)
  | instr (t : ObjectType)
  | constNode (value : Nat) (t : ObjectType)
deriving DecidableEq, Repr

/-- `Node::get_type` on `NodeObj`. -/
def NodeObjM.get_type : NodeObjM → ObjectType
  | .obj t => t
  | .instr t => t
  | .constNode _ t => t

/-- `Node::size_in_bits` on `NodeObj`: a `Constant`'s bit size is the bit
length of its natural value (`BigUint::bits`), others use the type width. -/
def NodeObjM.size_in_bits : NodeObjM → Nat
  | .obj t => t.bits
  | .instr t => t.bits
  | .constNode v _ => Nat.size v

/-- Modelled from the spec: the context facade (`context.rs` is not part of
the sources) is a lookup from ids to nodes; stale ids return absent. -/
structure SsaContext where
  nodes : NodeId → Option NodeObjM

/-- Modelled from the spec: `SsaContext::try_get_node`. -/
def SsaContext.try_get_node (ctx : SsaContext) (id : NodeId) : Option NodeObjM :=
  ctx.nodes id

/-- Modelled from the spec: `SsaContext::get_object_type` returns
`NotAnObject` on a missed lookup. -/
def SsaContext.get_object_type (ctx : SsaContext) (id : NodeId) : ObjectType :=
  match ctx.nodes id with
  | some n => n.get_type
  | none => ObjectType.NotAnObject

/-- `NodeEval::from_id`: constants are read back through
`FieldElement::from_be_bytes_reduce`, i.e. reduced into the field. -/
def NodeEval.from_id (ctx : SsaContext) (id : NodeId) : NodeEval :=
  match ctx.nodes id with
  | some (.constNode v t) => NodeEval.Const (v % fieldOrder) t
  | _ => NodeEval.VarOrInstruction id

/-- Modelled from the spec: error kinds of `errors.rs` (not in the sources);
`UnstructuredError` carries a human-readable message. -/
inductive RuntimeErrorKind where
  | unstructuredError (message : String)
deriving DecidableEq, Repr

/-- Modelled from the spec: `RuntimeError { kind, location? }`;
`add_location` attaches a source location to a kind. -/
structure RuntimeError where
  kind : RuntimeErrorKind
  location : Option Location
deriving DecidableEq, Repr

/-- `RuntimeErrorKind::add_location`. -/
def RuntimeErrorKind.add_location (k : RuntimeErrorKind) (loc : Location) : RuntimeError :=
  { kind := k, location := some loc }

/-- Outcome of running a fallible Rust computation: a value, a structured
`Err`, or a panic (with the panic message). -/
inductive EvalResult (α : Type) where
  | ok (a : α)
  | err (e : RuntimeError)
  | panicked (msg : String)
deriving DecidableEq, Repr

/-- `BinaryOp` from `node.rs`. -/
inductive BinaryOp where
  | Add
  | SafeAdd
  | Sub (max_rhs_value : Nat)
  | SafeSub (max_rhs_value : Nat)
  | Mul
  | SafeMul
  | Udiv
  | Sdiv
  | Urem
  | Srem
  | Div
  | Eq
  | Ne
  | Ult
  | Ule
  | Slt
  | Sle
  | Lt
  | Lte
  | And
  | Or
  | Xor
  | Shl
  | Shr
  | Assign
deriving DecidableEq, Repr

/-- `Binary` from `node.rs`. -/
structure Binary where
  lhs : NodeId
  rhs : NodeId
  operator : BinaryOp
  predicate : Option NodeId
deriving DecidableEq, Repr

/-- `Mark` from `node.rs`. -/
inductive Mark where
  | None
  | Deleted
  | ReplaceWith (id : NodeId)
deriving DecidableEq, Repr

/-- `Operation` from `node.rs`. -/
inductive Operation where
  | Binary (b : Binary)
  | Cast (value : NodeId)
  | Truncate (value : NodeId) (bit_size : Nat) (max_bit_size : Nat)
  | Not (value : NodeId)
  | Constrain (value : NodeId) (loc : Location)
  | Jne (value : NodeId) (block : BlockId)
  | Jeq (value : NodeId) (block : BlockId)
  | Jmp (block : BlockId)
  | Phi (root : NodeId) (block_args : List (NodeId × BlockId))
  | Call (func_id : FuncId) (arguments : List NodeId)
      (returned_arrays : List (ArrayId × Nat)) (predicate : AssumptionId)
  | Return (values : List NodeId)
  | Result (call_instruction : NodeId) (index : Nat)
  | Cond (condition : NodeId) (val_true : NodeId) (val_false : NodeId)
  | Load (array_id : ArrayId) (index : NodeId)
  | Store (array_id : ArrayId) (index : NodeId) (value : NodeId)
  | Intrinsic (op : OPCODE) (args : List NodeId)
  | Nop
deriving DecidableEq, Repr

/-- `Instruction` from `node.rs`. -/
structure Instruction where
  id : NodeId
  operation : Operation
  res_type : ObjectType
  parent_block : BlockId
  res_name : String
  mark : Mark
deriving DecidableEq, Repr

/-- The loop body of `Instruction::simplify_phi`: `same` is the mutable local
of the source loop; `continue` on a self-reference or on the already chosen
value, early `return Some(ins_id)` when a second distinct value shows up. -/
def simplify_phi_loop (ins_id : NodeId) (same : Option NodeId) :
    List (NodeId × BlockId) → Option NodeId
  | [] => same
  | op :: rest =>
    if some op.1 = same ∨ op.1 = ins_id then
      simplify_phi_loop ins_id same rest
    else
      match same with
      | some _ => some ins_id
      | none => simplify_phi_loop ins_id (some op.1) rest

/-- `Instruction::simplify_phi`. -/
def Instruction.simplify_phi (ins_id : NodeId) (phi_arguments : List (NodeId × BlockId)) :
    Option NodeId :=
  simplify_phi_loop ins_id none phi_arguments

section PhiLemmas

/-- Once `same` is chosen, the loop keeps it when every further argument is
the chosen value or a self-reference. -/
lemma simplify_phi_loop_stable (p v : NodeId) (args : List (NodeId × BlockId))
    (h : ∀ w ∈ args.map Prod.fst, w = v ∨ w = p) :
    simplify_phi_loop p (some v) args = some v := by
  induction args with
  | nil => rfl
  | cons op rest ih =>
    have hop := h op.1 (by simp)
    have hrest : ∀ w ∈ rest.map Prod.fst, w = v ∨ w = p := by
      intro w hw; exact h w (by simp [hw])
    unfold simplify_phi_loop
    rcases hop with h1 | h1
    · rw [if_pos (Or.inl (by rw [h1]))]; exact ih hrest
    · rw [if_pos (Or.inr h1)]; exact ih hrest

/-- Once `same` is chosen, any later argument that is neither the chosen
value nor a self-reference makes the phi non-trivial. -/
lemma simplify_phi_loop_nontrivial (p v : NodeId) (args : List (NodeId × BlockId))
    (h : ∃ w ∈ args.map Prod.fst, w ≠ v ∧ w ≠ p) :
    simplify_phi_loop p (some v) args = some p := by
  induction args with
  | nil => simp at h
  | cons op rest ih =>
    unfold simplify_phi_loop
    by_cases hc : some op.1 = some v ∨ op.1 = p
    · rw [if_pos hc]
      apply ih
      rcases h with ⟨w, hw, hwv, hwp⟩
      refine ⟨w, ?_, hwv, hwp⟩
      simp only [List.map_cons, List.mem_cons] at hw
      rcases hw with hw | hw
      · exfalso
        rcases hc with hc | hc
        · exact hwv (hw.trans (Option.some_injective _ hc))
        · exact hwp (hw.trans hc)
      · exact hw
    · rw [if_neg hc]

/-- Starting from no candidate, a phi whose arguments are all
self-references simplifies to `none`. -/
lemma simplify_phi_loop_all_self (p : NodeId) (args : List (NodeId × BlockId))
    (h : ∀ w ∈ args.map Prod.fst, w = p) :
    simplify_phi_loop p none args = none := by
  induction args with
  | nil => rfl
  | cons op rest ih =>
    have hop : op.1 = p := h op.1 (by simp)
    unfold simplify_phi_loop
    rw [if_pos (Or.inr hop)]
    exact ih fun w hw => h w (by simp [hw])

/-- Starting from no candidate, two distinct non-self argument values make
the phi non-trivial. -/
lemma simplify_phi_loop_two_values (p : NodeId) (args : List (NodeId × BlockId))
    (u v : NodeId) (hu : u ∈ args.map Prod.fst) (hv : v ∈ args.map Prod.fst)
    (hup : u ≠ p) (hvp : v ≠ p) (huv : u ≠ v) :
    simplify_phi_loop p none args = some p := by
  induction args with
  | nil => simp at hu
  | cons op rest ih =>
    simp only [List.map_cons, List.mem_cons] at hu hv
    unfold simplify_phi_loop
    by_cases hself : op.1 = p
    · rw [if_pos (Or.inr hself)]
      have hu' : u ∈ rest.map Prod.fst := by
        rcases hu with hu | hu
        · exact absurd (hu.trans hself) hup
        · exact hu
      have hv' : v ∈ rest.map Prod.fst := by
        rcases hv with hv | hv
        · exact absurd (hv.trans hself) hvp
        · exact hv
      exact ih hu' hv'
    · rw [if_neg (by simp [hself])]
      apply simplify_phi_loop_nontrivial
      by_cases huo : u = op.1
      · have hv' : v ∈ rest.map Prod.fst := by
          rcases hv with hv | hv
          · exact absurd (hv.trans huo.symm).symm huv
          · exact hv
        exact ⟨v, hv', fun hc => huv (huo.trans hc.symm), hvp⟩
      · have hu' : u ∈ rest.map Prod.fst := by
          rcases hu with hu | hu
          · exact absurd hu huo
          · exact hu
        exact ⟨u, hu', huo, hup⟩

end PhiLemmas

/-- C4: `simplify_phi(p, args)` returns `some id` with `id ≠ p` only when at
most one distinct non-self value appears among the argument values; with two
distinct non-self values it returns `some p` (non-trivial), and with no
non-self value it returns `none`. -/
theorem c4_simplify_phi_trivial (p : NodeId) (args : List (NodeId × BlockId)) :
    (∀ id, Instruction.simplify_phi p args = some id → id ≠ p →
      ∀ u v, u ∈ (args.map Prod.fst).filter (· ≠ p) →
        v ∈ (args.map Prod.fst).filter (· ≠ p) → u = v) ∧
    (∀ u v, u ∈ (args.map Prod.fst).filter (· ≠ p) →
      v ∈ (args.map Prod.fst).filter (· ≠ p) → u ≠ v →
      Instruction.simplify_phi p args = some p) ∧
    ((∀ w ∈ args.map Prod.fst, w = p) → Instruction.simplify_phi p args = none) := by
  refine ⟨?_, ?_, ?_⟩
  · intro id hid hidp u v hu hv
    by_contra huv
    simp only [List.mem_filter, decide_eq_true_eq] at hu hv
    have := simplify_phi_loop_two_values p args u v hu.1 hv.1 hu.2 hv.2 huv
    rw [Instruction.simplify_phi, this] at hid
    exact hidp (Option.some_injective _ hid.symm)
  · intro u v hu hv huv
    simp only [List.mem_filter, decide_eq_true_eq] at hu hv
    exact simplify_phi_loop_two_values p args u v hu.1 hv.1 hu.2 hv.2 huv
  · intro h
    exact simplify_phi_loop_all_self p args h

/-- Witness for C4 at a concrete phi: two distinct non-self incoming values
leave the phi untouched. -/
theorem c4_simplify_phi_trivial_witness :
    Instruction.simplify_phi 0 [(1, 10), (2, 20)] = some 0 :=
  (c4_simplify_phi_trivial 0 [(1, 10), (2, 20)]).2.1 1 2
    (by decide) (by decide) (by decide)

/-- `u128::add` as used by `wrapping` (operands are already reduced below
`2^127` there, so the addition never overflows). -/
def u128_add (a b : Nat) : Nat := (a + b) % u128Mod

/-- `u128::wrapping_sub`. -/
def u128_wrapping_sub (a b : Nat) : Nat := (u128Mod + a % u128Mod - b % u128Mod) % u128Mod

/-- `u128` multiplication, wrapping modulo `2^128`. -/
def u128_mul (a b : Nat) : Nat := (a * b) % u128Mod

/-- `u128::bitand`. -/
def u128_bitand (a b : Nat) : Nat := a &&& b

/-- `u128::bitor`. -/
def u128_bitor (a b : Nat) : Nat := a ||| b

/-- `u128::bitxor`. -/
def u128_bitxor (a b : Nat) : Nat := a ^^^ b

/-- `u128::shl`: the shift amount is masked modulo the bit width. -/
def u128_shl (a b : Nat) : Nat := (a % u128Mod) * 2 ^ (b % 128) % u128Mod

/-- `u128::shr`: the shift amount is masked modulo the bit width. -/
def u128_shr (a b : Nat) : Nat := (a % u128Mod) / 2 ^ (b % 128)

/-- Field addition on canonical representatives. -/
def fieldAdd (a b : Nat) : EvalResult Nat := .ok ((a + b) % fieldOrder)

/-- Field subtraction on canonical representatives. -/
def fieldSub (a b : Nat) : EvalResult Nat := .ok ((fieldOrder + a % fieldOrder - b % fieldOrder) % fieldOrder)

/-- Field multiplication on canonical representatives. -/
def fieldMul (a b : Nat) : EvalResult Nat := .ok (a * b % fieldOrder)

/-- Field division `a * b⁻¹` (via the extended gcd); only reached with a
non-zero divisor. -/
def fieldDiv (a b : Nat) : EvalResult Nat :=
  .ok (a * (((Nat.gcdA b fieldOrder) % (fieldOrder : Int) + fieldOrder).toNat % fieldOrder) % fieldOrder)

/-- `field_op_not_allowed`: bitwise and shift operators reaching a
`NativeField` result type hit an `unreachable!`. -/
def field_op_not_allowed (_a _b : Nat) : EvalResult Nat :=
  .panicked "operation not allowed for FieldElement"

/-- `wrapping` from `node.rs`: for a non-field result type reduce both
operands through `to_u128` and modulo `1 << bits`, apply the `u128`
operator, and reduce again; for `NativeField` apply the field operator. -/
def wrapping (lhs rhs : Nat) (res_type : ObjectType)
    (u128_op : Nat → Nat → Nat) (field_op : Nat → Nat → EvalResult Nat) :
    EvalResult NodeEval :=
  if res_type ≠ ObjectType.NativeField then
    let type_modulo := 2 ^ (res_type.bits % 128)
    let lhs := fieldToU128 lhs % type_modulo
    let rhs := fieldToU128 rhs % type_modulo
    let x := u128_op lhs rhs % type_modulo
    .ok (NodeEval.Const x res_type)
  else
    match field_op lhs rhs with
    | .ok v => .ok (NodeEval.Const v res_type)
    | .err e => .err e
    | .panicked m => .panicked m

/-- The body of `Binary::evaluate` once both operands have been resolved;
`l_type`/`r_type` are the context types of the operand ids. -/
def Binary.evalCore (self : Binary) (id : NodeId) (res_type : ObjectType)
    (l_type r_type : ObjectType) (l_eval r_eval : NodeEval) : EvalResult NodeEval :=
  let lhs := l_eval.into_const_value
  let rhs := r_eval.into_const_value
  let l_is_zero := lhs = some 0
  let r_is_zero := rhs = some 0
  match self.operator with
  | .Add | .SafeAdd =>
    if l_is_zero then .ok r_eval
    else if r_is_zero then .ok l_eval
    else if l_type ≠ r_type then .panicked "assertion failed: l_type == r_type"
    else
      match lhs, rhs with
      | some a, some b => wrapping a b l_type u128_add fieldAdd
      | _, _ => .ok (NodeEval.VarOrInstruction id)
  | .Sub _ | .SafeSub _ =>
    if r_is_zero then .ok l_eval
    else if self.lhs = self.rhs then .ok (NodeEval.Const 0 res_type)
    else
      match lhs, rhs with
      | some a, some b => wrapping a b res_type u128_wrapping_sub fieldSub
      | _, _ => .ok (NodeEval.VarOrInstruction id)
  | .Mul | .SafeMul =>
    let l_is_one := lhs = some 1
    let r_is_one := rhs = some 1
    if l_type ≠ r_type then .panicked "assertion failed: l_type == r_type"
    else if l_is_zero ∨ r_is_one then .ok l_eval
    else if r_is_zero ∨ l_is_one then .ok r_eval
    else
      match lhs, rhs with
      | some a, some b => wrapping a b res_type u128_mul fieldMul
      | _, _ => .ok (NodeEval.VarOrInstruction id)
  | .Udiv =>
    if r_is_zero then .panicked "Panic - division by zero"
    else if l_is_zero then .ok l_eval
    else
      match lhs, rhs with
      | some a, some b =>
        match res_type.field_to_type a, res_type.field_to_type b with
        | some la, some rb =>
          let la := fieldToU128 la
          let rb := fieldToU128 rb
          if rb = 0 then .panicked "attempt to divide by zero"
          else .ok (NodeEval.Const (la / rb) res_type)
        | _, _ => .panicked "field_to_type"
      | _, _ => .ok (NodeEval.VarOrInstruction id)
  | .Div =>
    if r_is_zero then .panicked "Panic - division by zero"
    else if l_is_zero then .ok l_eval
    else
      match lhs, rhs with
      | some a, some b =>
        match fieldDiv a b with
        | .ok v => .ok (NodeEval.Const v res_type)
        | .err e => .err e
        | .panicked m => .panicked m
      | _, _ => .ok (NodeEval.VarOrInstruction id)
  | .Sdiv =>
    if r_is_zero then .panicked "Panic - division by zero"
    else if l_is_zero then .ok l_eval
    else if lhs.isSome ∧ rhs.isSome then .panicked "Constant folding for division"
    else .ok (NodeEval.VarOrInstruction id)
  | .Urem | .Srem =>
    if r_is_zero then .panicked "Panic - division by zero"
    else if l_is_zero then .ok l_eval
    else if lhs.isSome ∧ rhs.isSome then .panicked "divide lhs/rhs but take sign into account"
    else .ok (NodeEval.VarOrInstruction id)
  | .Ult =>
    if r_is_zero then .ok (NodeEval.Const 0 ObjectType.Boolean)
    else
      match lhs, rhs with
      | some a, some b =>
        if res_type = ObjectType.NativeField then .panicked "assertion failed: res_type != NativeField"
        else .ok (NodeEval.Const (if a < b then 1 else 0) ObjectType.Boolean)
      | _, _ => .ok (NodeEval.VarOrInstruction id)
  | .Ule =>
    if l_is_zero then .ok (NodeEval.Const 1 ObjectType.Boolean)
    else
      match lhs, rhs with
      | some a, some b =>
        if res_type = ObjectType.NativeField then .panicked "assertion failed: res_type != NativeField"
        else .ok (NodeEval.Const (if a ≤ b then 1 else 0) ObjectType.Boolean)
      | _, _ => .ok (NodeEval.VarOrInstruction id)
  | .Slt => .ok (NodeEval.VarOrInstruction id)
  | .Sle => .ok (NodeEval.VarOrInstruction id)
  | .Lt =>
    if r_is_zero then .ok (NodeEval.Const 0 ObjectType.Boolean)
    else
      match lhs, rhs with
      | some a, some b => .ok (NodeEval.Const (if a < b then 1 else 0) ObjectType.Boolean)
      | _, _ => .ok (NodeEval.VarOrInstruction id)
  | .Lte =>
    if l_is_zero then .ok (NodeEval.Const 1 ObjectType.Boolean)
    else
      match lhs, rhs with
      | some a, some b => .ok (NodeEval.Const (if a ≤ b then 1 else 0) ObjectType.Boolean)
      | _, _ => .ok (NodeEval.VarOrInstruction id)
  | .Eq =>
    if self.lhs = self.rhs then .ok (NodeEval.Const 1 ObjectType.Boolean)
    else
      match lhs, rhs with
      | some a, some b =>
        if a = b then .ok (NodeEval.Const 1 ObjectType.Boolean)
        else .ok (NodeEval.Const 0 ObjectType.Boolean)
      | _, _ => .ok (NodeEval.VarOrInstruction id)
  | .Ne =>
    if self.lhs = self.rhs then .ok (NodeEval.Const 0 ObjectType.Boolean)
    else
      match lhs, rhs with
      | some a, some b =>
        if a ≠ b then .ok (NodeEval.Const 1 ObjectType.Boolean)
        else .ok (NodeEval.Const 0 ObjectType.Boolean)
      | _, _ => .ok (NodeEval.VarOrInstruction id)
  | .And =>
    if l_is_zero ∨ self.lhs = self.rhs then .ok l_eval
    else if r_is_zero then .ok r_eval
    else
      match lhs, rhs with
      | some a, some b => wrapping a b res_type u128_bitand field_op_not_allowed
      | _, _ => .ok (NodeEval.VarOrInstruction id)
  | .Or =>
    if l_is_zero ∨ self.lhs = self.rhs then .ok r_eval
    else if r_is_zero then .ok l_eval
    else
      match lhs, rhs with
      | some a, some b => wrapping a b res_type u128_bitor field_op_not_allowed
      | _, _ => .ok (NodeEval.VarOrInstruction id)
  | .Xor =>
    if self.lhs = self.rhs then .ok (NodeEval.Const 0 res_type)
    else if l_is_zero then .ok r_eval
    else if r_is_zero then .ok l_eval
    else
      match lhs, rhs with
      | some a, some b => wrapping a b res_type u128_bitxor field_op_not_allowed
      | _, _ => .ok (NodeEval.VarOrInstruction id)
  | .Shl =>
    if l_is_zero then .ok l_eval
    else if r_is_zero then .ok l_eval
    else
      match lhs, rhs with
      | some a, some b => wrapping a b res_type u128_shl field_op_not_allowed
      | _, _ => .ok (NodeEval.VarOrInstruction id)
  | .Shr =>
    if l_is_zero then .ok l_eval
    else if r_is_zero then .ok l_eval
    else
      match lhs, rhs with
      | some a, some b => wrapping a b res_type u128_shr field_op_not_allowed
      | _, _ => .ok (NodeEval.VarOrInstruction id)
  | .Assign => .ok (NodeEval.VarOrInstruction id)

/-- `Binary::evaluate`: resolve both operands through `eval_fn` (errors and
panics propagate, left first), read the operand context types, then fold. -/
def Binary.evaluate (self : Binary) (ctx : SsaContext) (id : NodeId)
    (res_type : ObjectType)
    (eval_fn : SsaContext → NodeId → EvalResult NodeEval) : EvalResult NodeEval :=
  match eval_fn ctx self.lhs with
  | .err e => .err e
  | .panicked m => .panicked m
  | .ok l_eval =>
    match eval_fn ctx self.rhs with
    | .err e => .err e
    | .panicked m => .panicked m
    | .ok r_eval =>
      self.evalCore id res_type (ctx.get_object_type self.lhs)
        (ctx.get_object_type self.rhs) l_eval r_eval

/-- `FieldElement::try_into_u128`: succeeds when the canonical
representative fits in 128 bits. -/
def tryIntoU128 (v : Nat) : Option Nat :=
  if v < u128Mod then some v else none

/-- `Instruction::evaluate_with` (constant folding of one instruction
through a caller-supplied operand resolver). -/
def Instruction.evaluate_with (self : Instruction) (ctx : SsaContext)
    (eval_fn : SsaContext → NodeId → EvalResult NodeEval) : EvalResult NodeEval :=
  match self.operation with
  | .Binary b => b.evaluate ctx self.id self.res_type eval_fn
  | .Cast value =>
    match eval_fn ctx value with
    | .err e => .err e
    | .panicked m => .panicked m
    | .ok v =>
      match v.into_const_value with
      | some l_const =>
        if self.res_type = ObjectType.NativeField then
          .ok (NodeEval.Const l_const self.res_type)
        else
          match tryIntoU128 l_const with
          | some lc => .ok (NodeEval.Const (lc % 2 ^ (self.res_type.bits % 128)) self.res_type)
          | none => .ok (NodeEval.VarOrInstruction self.id)
      | none => .ok (NodeEval.VarOrInstruction self.id)
  | .Not value =>
    match eval_fn ctx value with
    | .err e => .err e
    | .panicked m => .panicked m
    | .ok v =>
      match v.into_const_value with
      | some l_const =>
        match self.res_type.field_to_type l_const with
        | some l0 =>
          let l := fieldToU128 l0
          let max := 2 ^ (self.res_type.bits % 128) - 1
          .ok (NodeEval.Const ((u128Mod - 1 - l) &&& max) self.res_type)
        | none => .panicked "field_to_type"
      | none => .ok (NodeEval.VarOrInstruction self.id)
  | .Constrain value location =>
    match eval_fn ctx value with
    | .err e => .err e
    | .panicked m => .panicked m
    | .ok v =>
      match v.into_const_value with
      | some obj =>
        if obj = 1 then
          .ok (NodeEval.VarOrInstruction NodeId.dummy)
        else if obj = 0 then
          .err ((RuntimeErrorKind.unstructuredError "Constraint is always false").add_location location)
        else .ok (NodeEval.VarOrInstruction self.id)
      | none => .ok (NodeEval.VarOrInstruction self.id)
  | .Cond condition val_true val_false =>
    match eval_fn ctx condition with
    | .err e => .err e
    | .panicked m => .panicked m
    | .ok v =>
      match v.into_const_value with
      | some cond =>
        if cond = 0 then .ok (NodeEval.VarOrInstruction val_false)
        else .ok (NodeEval.VarOrInstruction val_true)
      | none =>
        if val_true = val_false then .ok (NodeEval.VarOrInstruction val_false)
        else .ok (NodeEval.VarOrInstruction self.id)
  | _ => .ok (NodeEval.VarOrInstruction self.id)

/-- `Instruction::evaluate`: fold with the default resolver that reads
constants through from the arena. -/
def Instruction.evaluate (self : Instruction) (ctx : SsaContext) : EvalResult NodeEval :=
  self.evaluate_with ctx fun c id => .ok (NodeEval.from_id c id)

/-- C2: every division-family fold (`Udiv`, `Sdiv`, `Div`, `Urem`, `Srem`)
whose right operand resolves to the constant 0 panics through
`todo!("Panic - division by zero")` instead of returning a structured
`RuntimeError`, contradicting the stated error policy. -/
theorem c2_div_by_zero_panics (ctx : SsaContext)
    (eval_fn : SsaContext → NodeId → EvalResult NodeEval)
    (bin : Binary) (id : NodeId) (res_type t : ObjectType) (le : NodeEval)
    (hop : bin.operator = .Udiv ∨ bin.operator = .Sdiv ∨ bin.operator = .Div ∨
      bin.operator = .Urem ∨ bin.operator = .Srem)
    (hl : eval_fn ctx bin.lhs = .ok le)
    (hr : eval_fn ctx bin.rhs = .ok (NodeEval.Const 0 t)) :
    bin.evaluate ctx id res_type eval_fn = .panicked "Panic - division by zero" := by
  unfold Binary.evaluate
  rw [hl, hr]
  unfold Binary.evalCore
  rcases hop with h | h | h | h | h <;> rw [h] <;> simp [NodeEval.into_const_value]

/-- Witness for C2: `Udiv` of the constants 1 and 0 at type `u8` panics. -/
theorem c2_div_by_zero_panics_witness :
    Binary.evaluate ⟨0, 1, .Udiv, none⟩ ⟨fun _ => none⟩ 9 (.Unsigned 8)
      (fun _ n => .ok (NodeEval.Const (1 - n) (.Unsigned 8))) =
      .panicked "Panic - division by zero" :=
  c2_div_by_zero_panics ⟨fun _ => none⟩ _ ⟨0, 1, .Udiv, none⟩ 9 (.Unsigned 8)
    (.Unsigned 8) (NodeEval.Const 1 (.Unsigned 8)) (Or.inl rfl) rfl rfl

/-- C3: folding `Constrain(value, loc)` when the value resolves to the
constant 1 deletes the constraint (reference to the dummy id); when it
resolves to the constant 0 it reports `UnstructuredError` with message
"Constraint is always false" located at `loc`. -/
theorem c3_constrain_fold (ctx : SsaContext)
    (ef1 ef0 : SsaContext → NodeId → EvalResult NodeEval)
    (i1 i0 : Instruction) (v : NodeId) (loc : Location) (t1 t0 : ObjectType)
    (hop1 : i1.operation = .Constrain v loc)
    (hop0 : i0.operation = .Constrain v loc)
    (h1 : ef1 ctx v = .ok (NodeEval.Const 1 t1))
    (h0 : ef0 ctx v = .ok (NodeEval.Const 0 t0)) :
    i1.evaluate_with ctx ef1 = .ok (NodeEval.VarOrInstruction NodeId.dummy) ∧
    i0.evaluate_with ctx ef0 =
      .err ⟨RuntimeErrorKind.unstructuredError "Constraint is always false", some loc⟩ := by
  constructor
  · simp [Instruction.evaluate_with, hop1, h1, NodeEval.into_const_value,
      RuntimeErrorKind.add_location]
  · simp [Instruction.evaluate_with, hop0, h0, NodeEval.into_const_value,
      RuntimeErrorKind.add_location]

/-- Witness for C3 at concrete instructions: a constrain on the constant 1
folds to the dummy reference, and on the constant 0 to the located error. -/
theorem c3_constrain_fold_witness :
    Instruction.evaluate_with ⟨5, .Constrain 2 77, .NotAnObject, 0, "", .None⟩
        ⟨fun _ => none⟩ (fun _ _ => .ok (NodeEval.Const 1 .Boolean)) =
      .ok (NodeEval.VarOrInstruction NodeId.dummy) ∧
    Instruction.evaluate_with ⟨5, .Constrain 2 77, .NotAnObject, 0, "", .None⟩
        ⟨fun _ => none⟩ (fun _ _ => .ok (NodeEval.Const 0 .Boolean)) =
      .err ⟨RuntimeErrorKind.unstructuredError "Constraint is always false", some 77⟩ :=
  c3_constrain_fold ⟨fun _ => none⟩ _ _ _ _ 2 77 .Boolean .Boolean rfl rfl rfl rfl

/-- Counterexample to C6 as stated: when the shared operand itself resolves
to the constant 0, `Sub(x, x)` returns that evaluation through the `x-0→x`
short-circuit, so the 0 carries the operand's own type (`NativeField` here)
rather than the instruction's result type `u8`. -/
theorem c6_counterexample :
    Binary.evaluate ⟨1, 1, .Sub 0, none⟩ ⟨fun _ => none⟩ 9 (.Unsigned 8)
      (fun _ _ => .ok (NodeEval.Const 0 .NativeField)) =
      .ok (NodeEval.Const 0 .NativeField) ∧
    NodeEval.Const 0 ObjectType.NativeField ≠ NodeEval.Const 0 (.Unsigned 8) :=
  ⟨rfl, by decide⟩

/-- C6 (amended): with both operand ids equal to one node `x` that resolves
successfully, `Sub(x,x)` and `SafeSub(x,x)` fold to the constant 0 — carried
with the result type, except that when `x` itself resolves to the constant 0
the fold returns `x`'s own evaluation (a 0 with `x`'s type); `Xor(x,x)`
folds to the constant 0 of the result type, `Eq(x,x)` to the Boolean 1,
`Ne(x,x)` to the Boolean 0, and `And(x,x)`/`Or(x,x)` to `x`'s evaluation. -/
theorem c6_self_operand_folds (ctx : SsaContext)
    (eval_fn : SsaContext → NodeId → EvalResult NodeEval)
    (x id : NodeId) (res_type : ObjectType) (pr : Option NodeId) (m m' : Nat)
    (xe : NodeEval) (hx : eval_fn ctx x = .ok xe) :
    (Binary.evaluate ⟨x, x, .Sub m, pr⟩ ctx id res_type eval_fn =
      .ok (if xe.into_const_value = some 0 then xe else NodeEval.Const 0 res_type)) ∧
    (Binary.evaluate ⟨x, x, .SafeSub m', pr⟩ ctx id res_type eval_fn =
      .ok (if xe.into_const_value = some 0 then xe else NodeEval.Const 0 res_type)) ∧
    (Binary.evaluate ⟨x, x, .Xor, pr⟩ ctx id res_type eval_fn =
      .ok (NodeEval.Const 0 res_type)) ∧
    (Binary.evaluate ⟨x, x, .Eq, pr⟩ ctx id res_type eval_fn =
      .ok (NodeEval.Const 1 .Boolean)) ∧
    (Binary.evaluate ⟨x, x, .Ne, pr⟩ ctx id res_type eval_fn =
      .ok (NodeEval.Const 0 .Boolean)) ∧
    (Binary.evaluate ⟨x, x, .And, pr⟩ ctx id res_type eval_fn = .ok xe) ∧
    (Binary.evaluate ⟨x, x, .Or, pr⟩ ctx id res_type eval_fn = .ok xe) := by
  by_cases h0 : xe.into_const_value = some 0 <;>
    refine ⟨?_, ?_, ?_, ?_, ?_, ?_, ?_⟩ <;>
    simp [Binary.evaluate, hx, Binary.evalCore, h0]

/-- Witness for C6 at a concrete non-constant operand: `Xor(x,x)` folds to
the constant 0 of the result type. -/
theorem c6_self_operand_folds_witness :
    Binary.evaluate ⟨1, 1, .Xor, none⟩ ⟨fun _ => none⟩ 9 (.Unsigned 8)
      (fun _ _ => .ok (NodeEval.VarOrInstruction 1)) =
      .ok (NodeEval.Const 0 (.Unsigned 8)) :=
  (c6_self_operand_folds ⟨fun _ => none⟩ (fun _ _ => .ok (NodeEval.VarOrInstruction 1))
    1 9 (.Unsigned 8) none 0 0 (NodeEval.VarOrInstruction 1) rfl).2.2.1

/-- Spec-side formula for C1: the wrapped value `(a op b) mod 2^w`, where
`op` is the 128-bit machine operator (shift amounts masked modulo 128). -/
def c1FoldValue (op : BinaryOp) (a b w : Nat) : Nat :=
  match op with
  | .Add | .SafeAdd => (a + b) % 2 ^ w
  | .Sub _ | .SafeSub _ => (2 ^ w + a - b) % 2 ^ w
  | .Mul | .SafeMul => a * b % 2 ^ w
  | .And => (a &&& b) % 2 ^ w
  | .Or => (a ||| b) % 2 ^ w
  | .Xor => (a ^^^ b) % 2 ^ w
  | .Shl => a * 2 ^ (b % 128) % 2 ^ w
  | .Shr => a / 2 ^ (b % 128) % 2 ^ w
  | _ => 0

/-- On a fixed-width result type of width `w < 128` with reduced operands,
`wrapping` applies the `u128` operator and reduces modulo `2^w`. -/
lemma wrapping_fixed (a b w : Nat) (res_type : ObjectType)
    (u128_op : Nat → Nat → Nat) (fop : Nat → Nat → EvalResult Nat)
    (hbits : res_type.bits = w) (hnf : res_type ≠ .NativeField) (hw : w < 128)
    (ha : a < 2 ^ w) (hb : b < 2 ^ w) :
    wrapping a b res_type u128_op fop =
      .ok (NodeEval.Const (u128_op a b % 2 ^ w) res_type) := by
  have hle : (2 : Nat) ^ w ≤ 2 ^ 128 := Nat.pow_le_pow_right (by norm_num) hw.le
  have ha' : a < 2 ^ 128 := lt_of_lt_of_le ha hle
  have hb' : b < 2 ^ 128 := lt_of_lt_of_le hb hle
  unfold wrapping fieldToU128 u128Mod
  rw [if_pos hnf]
  simp only [hbits, Nat.mod_eq_of_lt hw, Nat.mod_eq_of_lt ha', Nat.mod_eq_of_lt hb',
    Nat.mod_eq_of_lt ha, Nat.mod_eq_of_lt hb]

/-- `u128::wrapping_sub` of reduced operands agrees with two's-complement
subtraction at width `w` after the final reduction. -/
lemma u128_wrapping_sub_mod (a b w : Nat) (hw : w < 128)
    (ha : a < 2 ^ w) (hb : b < 2 ^ w) :
    u128_wrapping_sub a b % 2 ^ w = (2 ^ w + a - b) % 2 ^ w := by
  have hle : (2 : Nat) ^ w ≤ 2 ^ 128 := Nat.pow_le_pow_right (by norm_num) hw.le
  have ha' : a < 2 ^ 128 := lt_of_lt_of_le ha hle
  have hb' : b < 2 ^ 128 := lt_of_lt_of_le hb hle
  unfold u128_wrapping_sub u128Mod
  rw [Nat.mod_eq_of_lt ha', Nat.mod_eq_of_lt hb',
    Nat.mod_mod_of_dvd _ (pow_dvd_pow 2 hw.le)]
  obtain ⟨m, hm⟩ : ∃ m, (2 : Nat) ^ 128 = 2 ^ w * (m + 1) := by
    refine ⟨2 ^ (128 - w) - 1, ?_⟩
    have h1 : (1 : Nat) ≤ 2 ^ (128 - w) := Nat.one_le_two_pow
    rw [Nat.sub_add_cancel h1, ← pow_add]
    congr 1
    omega
  have hexp : (2 : Nat) ^ w * (m + 1) = 2 ^ w * m + 2 ^ w := by ring
  have hsplit : 2 ^ 128 + a - b = (2 ^ w + a - b) + 2 ^ w * m := by omega
  rw [hsplit, Nat.add_mul_mod_self_left]

/-- Counterexample to C1 as stated: (i) with operand constants not reduced,
`Add`'s `0+x→x` short-circuit returns the unreduced constant 256 at `u8`;
(ii) `Shl` masks the shift amount modulo 128 (`1 << 130` folds to 4 at `u8`,
not to `2^130 mod 2^8 = 0`); (iii) `Add` wraps at the operands' context type
(`u16` here), not at the instruction's result type `u8`. -/
theorem c1_counterexample :
    (Binary.evaluate ⟨0, 1, .Add, none⟩
        ⟨fun _ => some (.obj (.Unsigned 8))⟩ 9 (.Unsigned 8)
        (fun _ n => .ok (NodeEval.Const (if n = 0 then 0 else 256) (.Unsigned 8))) =
        .ok (NodeEval.Const 256 (.Unsigned 8)) ∧ (256 : Nat) ≠ (0 + 256) % 2 ^ 8) ∧
    (Binary.evaluate ⟨0, 1, .Shl, none⟩
        ⟨fun _ => some (.obj (.Unsigned 8))⟩ 9 (.Unsigned 8)
        (fun _ n => .ok (NodeEval.Const (if n = 0 then 1 else 130) (.Unsigned 8))) =
        .ok (NodeEval.Const 4 (.Unsigned 8)) ∧ (4 : Nat) ≠ 1 * 2 ^ 130 % 2 ^ 8) ∧
    (Binary.evaluate ⟨0, 1, .Add, none⟩
        ⟨fun _ => some (.obj (.Unsigned 16))⟩ 9 (.Unsigned 8)
        (fun _ n => .ok (NodeEval.Const (if n = 0 then 200 else 100) (.Unsigned 16))) =
        .ok (NodeEval.Const 300 (.Unsigned 16))) := by
  refine ⟨⟨by decide, by decide⟩, ⟨by decide, by decide⟩, by decide⟩

/-- C1 (amended): for a binary instruction with a wrapping operator (`Add`,
`SafeAdd`, `Sub`, `SafeSub`, `Mul`, `SafeMul`, `And`, `Or`, `Xor`, `Shl`,
`Shr`), a fixed-width (non-`NativeField`) result type of width `w < 128`,
operand context types equal to the result type, and operands resolving to
constants `a, b` already reduced modulo `2^w` and carried at the result
type, `evaluate` folds to the constant `(a op b) mod 2^w` of the result
type, where `op` is the 128-bit machine operator (shift amounts masked
modulo 128); no overflow error is ever signalled. -/
theorem c1_wrapping_fold (ctx : SsaContext)
    (eval_fn : SsaContext → NodeId → EvalResult NodeEval)
    (bin : Binary) (id : NodeId) (res_type : ObjectType) (w a b : Nat)
    (hop : bin.operator = .Add ∨ bin.operator = .SafeAdd ∨
      (∃ m, bin.operator = .Sub m) ∨ (∃ m, bin.operator = .SafeSub m) ∨
      bin.operator = .Mul ∨ bin.operator = .SafeMul ∨ bin.operator = .And ∨
      bin.operator = .Or ∨ bin.operator = .Xor ∨ bin.operator = .Shl ∨
      bin.operator = .Shr)
    (hft : res_type = .Unsigned w ∨ res_type = .Signed w ∨
      (res_type = .Boolean ∧ w = 1))
    (hw : w < 128)
    (hl : eval_fn ctx bin.lhs = .ok (NodeEval.Const a res_type))
    (hr : eval_fn ctx bin.rhs = .ok (NodeEval.Const b res_type))
    (hlt : ctx.get_object_type bin.lhs = res_type)
    (hrt : ctx.get_object_type bin.rhs = res_type)
    (ha : a < 2 ^ w) (hb : b < 2 ^ w) :
    bin.evaluate ctx id res_type eval_fn =
      .ok (NodeEval.Const (c1FoldValue bin.operator a b w) res_type) := by
  have hbits : res_type.bits = w := by
    rcases hft with h | h | ⟨h, h'⟩ <;> subst h <;>
      first | rfl | (simp [ObjectType.bits]; omega)
  have hnf : res_type ≠ .NativeField := by
    rcases hft with h | h | ⟨h, _⟩ <;> subst h <;> simp
  have hle : (2 : Nat) ^ w ≤ 2 ^ 128 := Nat.pow_le_pow_right (by norm_num) hw.le
  have ha2 : a < 2 ^ 128 := lt_of_lt_of_le ha hle
  have hmm : ∀ x : Nat, x % u128Mod % 2 ^ w = x % 2 ^ w :=
    fun x => Nat.mod_mod_of_dvd x (show (2 : Nat) ^ w ∣ u128Mod from pow_dvd_pow 2 hw.le)
  have hamod : a % u128Mod = a := Nat.mod_eq_of_lt (show a < u128Mod from ha2)
  obtain ⟨l, r, op, pr⟩ := bin
  simp only at hop hl hr hlt hrt
  have hab : l = r → a = b := by
    intro hlr
    rw [hlr, hr] at hl
    simpa using hl.symm
  rcases hop with h | h | ⟨m, h⟩ | ⟨m, h⟩ | h | h | h | h | h | h | h <;> subst h
  · -- Add
    by_cases ha0 : a = 0
    · simp [Binary.evaluate, hl, hr, hlt, hrt, Binary.evalCore,
        NodeEval.into_const_value, ha0, c1FoldValue, Nat.mod_eq_of_lt hb]
    · by_cases hb0 : b = 0
      · simp [Binary.evaluate, hl, hr, hlt, hrt, Binary.evalCore,
          NodeEval.into_const_value, ha0, hb0, c1FoldValue, Nat.mod_eq_of_lt ha]
      · simp [Binary.evaluate, hl, hr, hlt, hrt, Binary.evalCore,
          NodeEval.into_const_value, ha0, hb0, c1FoldValue,
          wrapping_fixed a b w res_type u128_add fieldAdd hbits hnf hw ha hb,
          u128_add, hmm]
  · -- SafeAdd
    by_cases ha0 : a = 0
    · simp [Binary.evaluate, hl, hr, hlt, hrt, Binary.evalCore,
        NodeEval.into_const_value, ha0, c1FoldValue, Nat.mod_eq_of_lt hb]
    · by_cases hb0 : b = 0
      · simp [Binary.evaluate, hl, hr, hlt, hrt, Binary.evalCore,
          NodeEval.into_const_value, ha0, hb0, c1FoldValue, Nat.mod_eq_of_lt ha]
      · simp [Binary.evaluate, hl, hr, hlt, hrt, Binary.evalCore,
          NodeEval.into_const_value, ha0, hb0, c1FoldValue,
          wrapping_fixed a b w res_type u128_add fieldAdd hbits hnf hw ha hb,
          u128_add, hmm]
  · -- Sub
    by_cases hb0 : b = 0
    · simp [Binary.evaluate, hl, hr, hlt, hrt, Binary.evalCore,
        NodeEval.into_const_value, hb0, c1FoldValue, Nat.add_mod_left,
        Nat.mod_eq_of_lt ha]
    · by_cases hlr : l = r
      · have := hab hlr
        subst this
        simp [Binary.evaluate, hl, hr, hlt, hrt, Binary.evalCore,
          NodeEval.into_const_value, hb0, hlr, c1FoldValue, Nat.add_sub_cancel]
      · simp [Binary.evaluate, hl, hr, hlt, hrt, Binary.evalCore,
          NodeEval.into_const_value, hb0, hlr, c1FoldValue,
          wrapping_fixed a b w res_type u128_wrapping_sub fieldSub hbits hnf hw ha hb,
          u128_wrapping_sub_mod a b w hw ha hb]
  · -- SafeSub
    by_cases hb0 : b = 0
    · simp [Binary.evaluate, hl, hr, hlt, hrt, Binary.evalCore,
        NodeEval.into_const_value, hb0, c1FoldValue, Nat.add_mod_left,
        Nat.mod_eq_of_lt ha]
    · by_cases hlr : l = r
      · have := hab hlr
        subst this
        simp [Binary.evaluate, hl, hr, hlt, hrt, Binary.evalCore,
          NodeEval.into_const_value, hb0, hlr, c1FoldValue, Nat.add_sub_cancel]
      · simp [Binary.evaluate, hl, hr, hlt, hrt, Binary.evalCore,
          NodeEval.into_const_value, hb0, hlr, c1FoldValue,
          wrapping_fixed a b w res_type u128_wrapping_sub fieldSub hbits hnf hw ha hb,
          u128_wrapping_sub_mod a b w hw ha hb]
  · -- Mul
    by_cases ha0 : a = 0
    · simp [Binary.evaluate, hl, hr, hlt, hrt, Binary.evalCore,
        NodeEval.into_const_value, ha0, c1FoldValue]
    · by_cases hb1 : b = 1
      · simp [Binary.evaluate, hl, hr, hlt, hrt, Binary.evalCore,
          NodeEval.into_const_value, ha0, hb1, c1FoldValue, Nat.mod_eq_of_lt ha]
      · by_cases hb0 : b = 0
        · simp [Binary.evaluate, hl, hr, hlt, hrt, Binary.evalCore,
            NodeEval.into_const_value, ha0, hb1, hb0, c1FoldValue]
        · by_cases ha1 : a = 1
          · simp [Binary.evaluate, hl, hr, hlt, hrt, Binary.evalCore,
              NodeEval.into_const_value, ha0, hb1, hb0, ha1, c1FoldValue,
              Nat.mod_eq_of_lt hb]
          · simp [Binary.evaluate, hl, hr, hlt, hrt, Binary.evalCore,
              NodeEval.into_const_value, ha0, hb1, hb0, ha1, c1FoldValue,
              wrapping_fixed a b w res_type u128_mul fieldMul hbits hnf hw ha hb,
              u128_mul, hmm]
  · -- SafeMul
    by_cases ha0 : a = 0
    · simp [Binary.evaluate, hl, hr, hlt, hrt, Binary.evalCore,
        NodeEval.into_const_value, ha0, c1FoldValue]
    · by_cases hb1 : b = 1
      · simp [Binary.evaluate, hl, hr, hlt, hrt, Binary.evalCore,
          NodeEval.into_const_value, ha0, hb1, c1FoldValue, Nat.mod_eq_of_lt ha]
      · by_cases hb0 : b = 0
        · simp [Binary.evaluate, hl, hr, hlt, hrt, Binary.evalCore,
            NodeEval.into_const_value, ha0, hb1, hb0, c1FoldValue]
        · by_cases ha1 : a = 1
          · simp [Binary.evaluate, hl, hr, hlt, hrt, Binary.evalCore,
              NodeEval.into_const_value, ha0, hb1, hb0, ha1, c1FoldValue,
              Nat.mod_eq_of_lt hb]
          · simp [Binary.evaluate, hl, hr, hlt, hrt, Binary.evalCore,
              NodeEval.into_const_value, ha0, hb1, hb0, ha1, c1FoldValue,
              wrapping_fixed a b w res_type u128_mul fieldMul hbits hnf hw ha hb,
              u128_mul, hmm]
  · -- And
    by_cases ha0 : a = 0
    · simp [Binary.evaluate, hl, hr, hlt, hrt, Binary.evalCore,
        NodeEval.into_const_value, ha0, c1FoldValue]
    · by_cases hlr : l = r
      · have := hab hlr
        subst this
        simp [Binary.evaluate, hl, hr, hlt, hrt, Binary.evalCore,
          NodeEval.into_const_value, ha0, hlr, c1FoldValue,
          Nat.mod_eq_of_lt ha]
      · by_cases hb0 : b = 0
        · simp [Binary.evaluate, hl, hr, hlt, hrt, Binary.evalCore,
            NodeEval.into_const_value, ha0, hlr, hb0, c1FoldValue]
        · simp [Binary.evaluate, hl, hr, hlt, hrt, Binary.evalCore,
            NodeEval.into_const_value, ha0, hlr, hb0, c1FoldValue,
            wrapping_fixed a b w res_type u128_bitand field_op_not_allowed hbits hnf hw ha hb,
            u128_bitand]
  · -- Or
    by_cases ha0 : a = 0
    · simp [Binary.evaluate, hl, hr, hlt, hrt, Binary.evalCore,
        NodeEval.into_const_value, ha0, c1FoldValue,
        Nat.mod_eq_of_lt hb]
    · by_cases hlr : l = r
      · have := hab hlr
        subst this
        simp [Binary.evaluate, hl, hr, hlt, hrt, Binary.evalCore,
          NodeEval.into_const_value, ha0, hlr, c1FoldValue,
          Nat.mod_eq_of_lt ha]
      · by_cases hb0 : b = 0
        · simp [Binary.evaluate, hl, hr, hlt, hrt, Binary.evalCore,
            NodeEval.into_const_value, ha0, hlr, hb0, c1FoldValue,
            Nat.mod_eq_of_lt ha]
        · simp [Binary.evaluate, hl, hr, hlt, hrt, Binary.evalCore,
            NodeEval.into_const_value, ha0, hlr, hb0, c1FoldValue,
            wrapping_fixed a b w res_type u128_bitor field_op_not_allowed hbits hnf hw ha hb,
            u128_bitor]
  · -- Xor
    by_cases hlr : l = r
    · have := hab hlr
      subst this
      simp [Binary.evaluate, hl, hr, hlt, hrt, Binary.evalCore,
        NodeEval.into_const_value, hlr, c1FoldValue]
    · by_cases ha0 : a = 0
      · simp [Binary.evaluate, hl, hr, hlt, hrt, Binary.evalCore,
          NodeEval.into_const_value, hlr, ha0, c1FoldValue,
          Nat.mod_eq_of_lt hb]
      · by_cases hb0 : b = 0
        · simp [Binary.evaluate, hl, hr, hlt, hrt, Binary.evalCore,
            NodeEval.into_const_value, hlr, ha0, hb0, c1FoldValue,
            Nat.mod_eq_of_lt ha]
        · simp [Binary.evaluate, hl, hr, hlt, hrt, Binary.evalCore,
            NodeEval.into_const_value, hlr, ha0, hb0, c1FoldValue,
            wrapping_fixed a b w res_type u128_bitxor field_op_not_allowed hbits hnf hw ha hb,
            u128_bitxor]
  · -- Shl
    by_cases ha0 : a = 0
    · simp [Binary.evaluate, hl, hr, hlt, hrt, Binary.evalCore,
        NodeEval.into_const_value, ha0, c1FoldValue]
    · by_cases hb0 : b = 0
      · simp [Binary.evaluate, hl, hr, hlt, hrt, Binary.evalCore,
          NodeEval.into_const_value, ha0, hb0, c1FoldValue, Nat.mod_eq_of_lt ha]
      · simp [Binary.evaluate, hl, hr, hlt, hrt, Binary.evalCore,
          NodeEval.into_const_value, ha0, hb0, c1FoldValue,
          wrapping_fixed a b w res_type u128_shl field_op_not_allowed hbits hnf hw ha hb,
          u128_shl, hamod, hmm]
  · -- Shr
    by_cases ha0 : a = 0
    · simp [Binary.evaluate, hl, hr, hlt, hrt, Binary.evalCore,
        NodeEval.into_const_value, ha0, c1FoldValue]
    · by_cases hb0 : b = 0
      · simp [Binary.evaluate, hl, hr, hlt, hrt, Binary.evalCore,
          NodeEval.into_const_value, ha0, hb0, c1FoldValue, Nat.mod_eq_of_lt ha]
      · simp [Binary.evaluate, hl, hr, hlt, hrt, Binary.evalCore,
          NodeEval.into_const_value, ha0, hb0, c1FoldValue,
          wrapping_fixed a b w res_type u128_shr field_op_not_allowed hbits hnf hw ha hb,
          u128_shr, hamod]

/-- Witness for C1 at scenario S1 of the spec: `Add : u8` of the constants
200 and 100 folds to the wrapped constant 44. -/
theorem c1_wrapping_fold_witness :
    Binary.evaluate ⟨0, 1, .Add, none⟩ ⟨fun _ => some (.obj (.Unsigned 8))⟩ 9
      (.Unsigned 8)
      (fun _ n => .ok (NodeEval.Const (if n = 0 then 200 else 100) (.Unsigned 8))) =
      .ok (NodeEval.Const 44 (.Unsigned 8)) := by
  have h := c1_wrapping_fold ⟨fun _ => some (.obj (.Unsigned 8))⟩
    (fun _ n => .ok (NodeEval.Const (if n = 0 then 200 else 100) (.Unsigned 8)))
    ⟨0, 1, .Add, none⟩ 9 (.Unsigned 8) 8 200 100
    (Or.inl rfl) (Or.inl rfl) (by omega) rfl rfl rfl rfl (by norm_num) (by norm_num)
  simpa [c1FoldValue] using h

/-- `Operation::map_id`: produce a new operation with every embedded
`NodeId` rewritten through `f`. -/
def Operation.map_id (op : Operation) (f : NodeId → NodeId) : Operation :=
  match op with
  | .Binary ⟨lhs, rhs, operator, predicate⟩ =>
    .Binary ⟨f lhs, f rhs, operator, predicate.map f⟩
  | .Cast value => .Cast (f value)
  | .Truncate value bit_size max_bit_size => .Truncate (f value) bit_size max_bit_size
  | .Not id => .Not (f id)
  | .Constrain id loc => .Constrain (f id) loc
  | .Jne id block => .Jne (f id) block
  | .Jeq id block => .Jeq (f id) block
  | .Jmp block => .Jmp block
  | .Phi root block_args =>
    .Phi (f root) (block_args.map fun p => (f p.1, p.2))
  | .Cond condition val_true val_false =>
    .Cond (f condition) (f val_true) (f val_false)
  | .Load array_id index => .Load array_id (f index)
  | .Store array_id index value => .Store array_id (f index) (f value)
  | .Intrinsic i args => .Intrinsic i (args.map f)
  | .Nop => .Nop
  | .Call func_id arguments returned_arrays predicate =>
    .Call func_id (arguments.map f) returned_arrays predicate
  | .Return values => .Return (values.map f)
  | .Result call_instruction index => .Result (f call_instruction) index

/-- `Operation::map_id_mut`: rewrite each contained `NodeId` in place (the
result of the in-place mutation).  In the `Phi` arm the source computes
`f(*root)` but discards the result, so the phi root is left unchanged. -/
def Operation.map_id_mut (op : Operation) (f : NodeId → NodeId) : Operation :=
  match op with
  | .Binary ⟨lhs, rhs, operator, predicate⟩ =>
    .Binary ⟨f lhs, f rhs, operator, predicate.map f⟩
  | .Cast value => .Cast (f value)
  | .Truncate value bit_size max_bit_size => .Truncate (f value) bit_size max_bit_size
  | .Not id => .Not (f id)
  | .Constrain id loc => .Constrain (f id) loc
  | .Jne id block => .Jne (f id) block
  | .Jeq id block => .Jeq (f id) block
  | .Jmp block => .Jmp block
  | .Phi root block_args =>
    .Phi root (block_args.map fun p => (f p.1, p.2))
  | .Cond condition val_true val_false =>
    .Cond (f condition) (f val_true) (f val_false)
  | .Load array_id index => .Load array_id (f index)
  | .Store array_id index value => .Store array_id (f index) (f value)
  | .Intrinsic i args => .Intrinsic i (args.map f)
  | .Nop => .Nop
  | .Call func_id arguments returned_arrays predicate =>
    .Call func_id (arguments.map f) returned_arrays predicate
  | .Return values => .Return (values.map f)
  | .Result call_instruction index => .Result (f call_instruction) index

/-- C5: at the failing input `Phi { root: 1, block_args: [(1, 0)] }` with
`f = (· + 1)`, `map_id` rewrites the phi root (and the argument ids) but
`map_id_mut` drops the rewritten root, so the two disagree. -/
theorem c5_map_id_mut_phi_root_divergence :
    (Operation.Phi 1 [(1, 0)]).map_id (fun n => n + 1) = Operation.Phi 2 [(2, 0)] ∧
    (Operation.Phi 1 [(1, 0)]).map_id_mut (fun n => n + 1) = Operation.Phi 1 [(2, 0)] ∧
    (Operation.Phi 1 [(1, 0)]).map_id_mut (fun n => n + 1) ≠
      (Operation.Phi 1 [(1, 0)]).map_id (fun n => n + 1) :=
  ⟨rfl, rfl, by decide⟩

/-- `Binary::truncate_required` (per-operator table). -/
def Binary.truncate_required (self : Binary) : Bool :=
  match self.operator with
  | .Add => false
  | .SafeAdd => false
  | .Sub _ => false
  | .SafeSub _ => false
  | .Mul => false
  | .SafeMul => false
  | .Udiv => true
  | .Sdiv => true
  | .Urem => true
  | .Srem => true
  | .Div => false
  | .Eq => true
  | .Ne => true
  | .Ult => true
  | .Ule => true
  | .Slt => true
  | .Sle => true
  | .Lt => true
  | .Lte => true
  | .And => true
  | .Or => true
  | .Xor => true
  | .Assign => false
  | .Shl => true
  | .Shr => true

/-- `Instruction::truncate_required`: for `Cast` the source bit size is read
through `obj.map_or(0, size_in_bits)` (0 when the node is absent). -/
def Instruction.truncate_required (self : Instruction) (ctx : SsaContext) : Bool :=
  match self.operation with
  | .Binary binary => binary.truncate_required
  | .Not _ => true
  | .Constrain _ _ => true
  | .Cast value_id =>
    decide (self.res_type.bits >
      (match ctx.try_get_node value_id with
       | some o => o.size_in_bits
       | none => 0))
  | .Truncate _ _ _ => false
  | .Phi _ _ => false
  | .Nop => false
  | .Jne _ _ => false
  | .Jeq _ _ => false
  | .Jmp _ => false
  | .Cond _ _ _ => false
  | .Load _ _ => false
  | .Store _ _ _ => true
  | .Intrinsic _ _ => true
  | .Call _ _ _ _ => false
  | .Return _ => true
  | .Result _ _ => false

/-- C7: `truncate_required` holds exactly for the listed binary operators,
for `Not`, `Constrain`, `Store`, `Intrinsic` and `Return`, and for `Cast`
when the result width exceeds the source node's currently stored bit size
(0 when the node is absent); it is false for every other operation. -/
theorem c7_truncate_required (ctx : SsaContext) (i : Instruction) :
    i.truncate_required ctx = true ↔
      ((∃ b, i.operation = .Binary b ∧
          (b.operator = .Udiv ∨ b.operator = .Sdiv ∨ b.operator = .Urem ∨
           b.operator = .Srem ∨ b.operator = .Eq ∨ b.operator = .Ne ∨
           b.operator = .Ult ∨ b.operator = .Ule ∨ b.operator = .Slt ∨
           b.operator = .Sle ∨ b.operator = .Lt ∨ b.operator = .Lte ∨
           b.operator = .And ∨ b.operator = .Or ∨ b.operator = .Xor ∨
           b.operator = .Shl ∨ b.operator = .Shr)) ∨
       (∃ v, i.operation = .Not v) ∨
       (∃ v loc, i.operation = .Constrain v loc) ∨
       (∃ a idx v, i.operation = .Store a idx v) ∨
       (∃ o args, i.operation = .Intrinsic o args) ∨
       (∃ vs, i.operation = .Return vs) ∨
       (∃ v, i.operation = .Cast v ∧
          i.res_type.bits >
            (match ctx.try_get_node v with
             | some o => o.size_in_bits
             | none => 0))) := by
  obtain ⟨iid, op, rt, pb, rn, mk⟩ := i
  cases op
  case Binary b =>
    obtain ⟨l, r, bop, pr⟩ := b
    cases bop <;> simp [Instruction.truncate_required, Binary.truncate_required]
  all_goals simp [Instruction.truncate_required]

/-- `BinaryOp::is_commutative`. -/
def BinaryOp.is_commutative : BinaryOp → Bool
  | .Add | .SafeAdd | .Mul | .SafeMul | .And | .Or | .Xor => true
  | _ => false

/-- `Instruction::standard_form`: swap the operands of a commutative binary
operator when `rhs < lhs` (result of the in-place mutation). -/
def Instruction.standard_form (self : Instruction) : Instruction :=
  match self.operation with
  | .Binary binary =>
    if binary.operator.is_commutative ∧ binary.rhs < binary.lhs then
      { self with operation := .Binary { binary with lhs := binary.rhs, rhs := binary.lhs } }
    else self
  | _ => self

/-- C8: after `standard_form`, every binary operation with a commutative
operator satisfies `lhs ≤ rhs` under the id ordering; instructions with
non-commutative operators or non-binary operations are left unchanged; and
the commutative operators are exactly `Add`, `SafeAdd`, `Mul`, `SafeMul`,
`And`, `Or`, `Xor`. -/
theorem c8_standard_form (i : Instruction) :
    (∀ b, (i.standard_form).operation = .Binary b →
      b.operator.is_commutative = true → b.lhs ≤ b.rhs) ∧
    (∀ b, i.operation = .Binary b → b.operator.is_commutative = false →
      i.standard_form = i) ∧
    ((∀ b, i.operation ≠ .Binary b) → i.standard_form = i) ∧
    (∀ op : BinaryOp, op.is_commutative = true ↔
      (op = .Add ∨ op = .SafeAdd ∨ op = .Mul ∨ op = .SafeMul ∨ op = .And ∨
       op = .Or ∨ op = .Xor)) := by
  refine ⟨?_, ?_, ?_, ?_⟩
  · intro b hb hcomm
    obtain ⟨iid, op, rt, pb, rn, mk⟩ := i
    cases op
    case Binary b0 =>
      obtain ⟨l0, r0, op0, pr0⟩ := b0
      simp only [Instruction.standard_form] at hb
      split at hb
      case isTrue hc =>
        simp only [Operation.Binary.injEq] at hb
        subst hb
        exact le_of_lt hc.2
      case isFalse hc =>
        simp only [Operation.Binary.injEq] at hb
        subst hb
        rcases not_and_or.mp hc with h | h
        · exact absurd hcomm h
        · exact le_of_not_lt h
    all_goals simp [Instruction.standard_form] at hb
  · intro b hb hcomm
    obtain ⟨iid, op, rt, pb, rn, mk⟩ := i
    cases op
    case Binary b0 =>
      simp only [Operation.Binary.injEq] at hb
      subst hb
      simp [Instruction.standard_form, hcomm]
    all_goals simp at hb
  · intro h
    obtain ⟨iid, op, rt, pb, rn, mk⟩ := i
    cases op
    case Binary b0 => exact absurd rfl (h b0)
    all_goals simp [Instruction.standard_form]
  · intro op
    cases op <;> simp [BinaryOp.is_commutative]

/-- Witness for C8 at a concrete instruction: `Add` with operands `(5, 3)`
is swapped into canonical order. -/
theorem c8_standard_form_witness :
    (Instruction.standard_form ⟨7, .Binary ⟨5, 3, .Add, none⟩, .Unsigned 8, 0, "", .None⟩).operation =
      .Binary ⟨3, 5, .Add, none⟩ ∧ (3 : NodeId) ≤ 5 :=
  ⟨by decide,
    (c8_standard_form ⟨7, .Binary ⟨5, 3, .Add, none⟩, .Unsigned 8, 0, "", .None⟩).1
      ⟨3, 5, .Add, none⟩ (by decide) rfl⟩

/-- `NumericType` from `node.rs`. -/
inductive NumericType where
  | Signed (bits : Nat)
  | Unsigned (bits : Nat)
  | NativeField
deriving DecidableEq, Repr

/-- `From<ObjectType> for NumericType`; `none` models the `unreachable!()`
panic on non-numeric object types. -/
def ObjectType.toNumericType : ObjectType → Option NumericType
  | .Signed x => some (.Signed x)
  | .Unsigned x => some (.Unsigned x)
  | .NativeField => some .NativeField
  | _ => none

/-- The surface operator enum (`noirc_frontend::BinaryOpKind`), with exactly
the variants matched by `Binary::from_ast`. -/
inductive BinaryOpKind where
  | Add
  | Subtract
  | Multiply
  | Divide
  | Equal
  | NotEqual
  | And
  | Or
  | Xor
  | Less
  | LessEqual
  | Greater
  | GreaterEqual
  | ShiftLeft
  | ShiftRight
  | Modulo
deriving DecidableEq, Repr

/-- `Binary::new`. -/
def Binary.new (operator : BinaryOp) (lhs rhs : NodeId) : Binary :=
  { operator := operator, lhs := lhs, rhs := rhs, predicate := none }

/-- `Binary::from_ast`: lower a surface operator at a result type;
`panicked` models the `unreachable!()` of a non-numeric dispatch type and
the `unimplemented!()` of `Modulo` over the field. -/
def Binary.from_ast (op_kind : BinaryOpKind) (op_type : ObjectType)
    (lhs rhs : NodeId) : EvalResult Binary :=
  match op_kind with
  | .Add => .ok (Binary.new .Add lhs rhs)
  | .Subtract => .ok (Binary.new (.Sub 0) lhs rhs)
  | .Multiply => .ok (Binary.new .Mul lhs rhs)
  | .Equal => .ok (Binary.new .Eq lhs rhs)
  | .NotEqual => .ok (Binary.new .Ne lhs rhs)
  | .And => .ok (Binary.new .And lhs rhs)
  | .Or => .ok (Binary.new .Or lhs rhs)
  | .Xor => .ok (Binary.new .Xor lhs rhs)
  | .Divide =>
    match op_type.toNumericType with
    | some (.Signed _) => .ok (Binary.new .Sdiv lhs rhs)
    | some (.Unsigned _) => .ok (Binary.new .Udiv lhs rhs)
    | some .NativeField => .ok (Binary.new .Div lhs rhs)
    | none => .panicked "failed to convert an object type into a numeric type"
  | .Less =>
    match op_type.toNumericType with
    | some (.Signed _) => .ok (Binary.new .Slt lhs rhs)
    | some (.Unsigned _) => .ok (Binary.new .Ult lhs rhs)
    | some .NativeField => .ok (Binary.new .Lt lhs rhs)
    | none => .panicked "failed to convert an object type into a numeric type"
  | .LessEqual =>
    match op_type.toNumericType with
    | some (.Signed _) => .ok (Binary.new .Sle lhs rhs)
    | some (.Unsigned _) => .ok (Binary.new .Ule lhs rhs)
    | some .NativeField => .ok (Binary.new .Lte lhs rhs)
    | none => .panicked "failed to convert an object type into a numeric type"
  | .Greater =>
    match op_type.toNumericType with
    | some (.Signed _) => .ok (Binary.new .Slt rhs lhs)
    | some (.Unsigned _) => .ok (Binary.new .Ult rhs lhs)
    | some .NativeField => .ok (Binary.new .Lt rhs lhs)
    | none => .panicked "failed to convert an object type into a numeric type"
  | .GreaterEqual =>
    match op_type.toNumericType with
    | some (.Signed _) => .ok (Binary.new .Sle rhs lhs)
    | some (.Unsigned _) => .ok (Binary.new .Ule rhs lhs)
    | some .NativeField => .ok (Binary.new .Lte rhs lhs)
    | none => .panicked "failed to convert an object type into a numeric type"
  | .ShiftLeft => .ok (Binary.new .Shl lhs rhs)
  | .ShiftRight => .ok (Binary.new .Shr lhs rhs)
  | .Modulo =>
    match op_type.toNumericType with
    | some (.Signed _) => .ok (Binary.new .Srem lhs rhs)
    | some (.Unsigned _) => .ok (Binary.new .Urem lhs rhs)
    | some .NativeField =>
      .panicked "Modulo operation with Field elements is not supported"
    | none => .panicked "failed to convert an object type into a numeric type"

/-- Counterexample to C9 as stated: `Modulo` over `NativeField` panics via
`unimplemented!` with message "Modulo operation with Field elements is not
supported" — a panic, and a different message than the claimed
"Modulo on field is not supported". -/
theorem c9_counterexample :
    Binary.from_ast .Modulo .NativeField 0 1 =
      .panicked "Modulo operation with Field elements is not supported" ∧
    "Modulo operation with Field elements is not supported" ≠
      "Modulo on field is not supported" :=
  ⟨rfl, by decide⟩

/-- C9 (amended): `Greater`/`GreaterEqual` lower to the less-than /
less-or-equal operator chosen by numeric kind with the operands swapped;
`Divide` lowers to `Sdiv`/`Udiv`/`Div` by kind; and `Modulo` over
`NativeField` panics via `unimplemented!` with message "Modulo operation
with Field elements is not supported" (a panic, not a structured error). -/
theorem c9_from_ast_lowering (w : Nat) (l r : NodeId) :
    Binary.from_ast .Greater (.Signed w) l r = .ok ⟨r, l, .Slt, none⟩ ∧
    Binary.from_ast .Greater (.Unsigned w) l r = .ok ⟨r, l, .Ult, none⟩ ∧
    Binary.from_ast .Greater .NativeField l r = .ok ⟨r, l, .Lt, none⟩ ∧
    Binary.from_ast .GreaterEqual (.Signed w) l r = .ok ⟨r, l, .Sle, none⟩ ∧
    Binary.from_ast .GreaterEqual (.Unsigned w) l r = .ok ⟨r, l, .Ule, none⟩ ∧
    Binary.from_ast .GreaterEqual .NativeField l r = .ok ⟨r, l, .Lte, none⟩ ∧
    Binary.from_ast .Divide (.Signed w) l r = .ok ⟨l, r, .Sdiv, none⟩ ∧
    Binary.from_ast .Divide (.Unsigned w) l r = .ok ⟨l, r, .Udiv, none⟩ ∧
    Binary.from_ast .Divide .NativeField l r = .ok ⟨l, r, .Div, none⟩ ∧
    Binary.from_ast .Modulo .NativeField l r =
      .panicked "Modulo operation with Field elements is not supported" :=
  ⟨rfl, rfl, rfl, rfl, rfl, rfl, rfl, rfl, rfl, rfl⟩

section ArrayProdSection

variable {Object σ ε : Type}

/-- Modelled from the spec: `Array::get` (its crate is not part of the
sources) returns element `i` of the array's contents, and accessing out of
bounds yields the error `getErr i`, matching the claim's "the error
produced by accessing element 0". -/
def arrGet (contents : List Object) (getErr : Nat → ε) (i : Nat) : Except ε Object :=
  match contents.get? i with
  | some o => .ok o
  | none => .error (getErr i)

/-- The `for i in 1..len` loop of `ArrayProd::call`: `mul` is the abstract
`binary_op::handle_mul_op` (its crate is not part of the sources), which may
mutate the evaluator state `σ`; a `?` error keeps the state reached so far. -/
def ArrayProd.loop (mul : Object → Object → σ → Except ε Object × σ)
    (contents : List Object) (getErr : Nat → ε) (i : Nat) (result : Object)
    (s : σ) : Except ε Object × σ :=
  if _h : i < contents.length then
    match arrGet contents getErr i with
    | .error e => (.error e, s)
    | .ok x =>
      match mul result x s with
      | (.error e, s') => (.error e, s')
      | (.ok r', s') => ArrayProd.loop mul contents getErr (i + 1) r' s'
  else (.ok result, s)
termination_by contents.length - i

/-- `ArrayProd::call` after its single argument has evaluated to the array
`contents`: seed the accumulator with element 0 (propagating its error with
the state unchanged) and fold the remaining elements with `mul`. -/
def ArrayProd.call (mul : Object → Object → σ → Except ε Object × σ)
    (contents : List Object) (getErr : Nat → ε) (s : σ) : Except ε Object × σ :=
  match arrGet contents getErr 0 with
  | .error e => (.error e, s)
  | .ok result => ArrayProd.loop mul contents getErr 1 result s

/-- Spec-side left-to-right stateful product: fold `mul` over the list,
stopping at the first error. -/
def foldMulSpec (mul : Object → Object → σ → Except ε Object × σ) :
    Object → List Object → σ → Except ε Object × σ
  | r, [], s => (.ok r, s)
  | r, x :: xs, s =>
    match mul r x s with
    | (.error e, s') => (.error e, s')
    | (.ok r', s') => foldMulSpec mul r' xs s'

/-- The indexed loop from position `i` is the structural fold over the
dropped suffix. -/
lemma ArrayProd.loop_eq_foldMulSpec
    (mul : Object → Object → σ → Except ε Object × σ)
    (contents : List Object) (getErr : Nat → ε) :
    ∀ d i r s, contents.length - i ≤ d →
      ArrayProd.loop mul contents getErr i r s =
        foldMulSpec mul r (contents.drop i) s := by
  intro d
  induction d with
  | zero =>
    intro i r s hle
    have hge : contents.length ≤ i := by omega
    unfold ArrayProd.loop
    rw [dif_neg (by omega), List.drop_eq_nil_of_le hge]
    rfl
  | succ d ih =>
    intro i r s hle
    by_cases h : i < contents.length
    · unfold ArrayProd.loop
      rw [dif_pos h]
      have hget : contents.get? i = some (contents.get ⟨i, h⟩) := List.get?_eq_get h
      have hdrop : contents.drop i = contents.get ⟨i, h⟩ :: contents.drop (i + 1) :=
        List.drop_eq_getElem_cons h
      rw [hdrop]
      simp only [arrGet, hget, foldMulSpec]
      cases hmul : mul r (contents.get ⟨i, h⟩) s with
      | mk res s' =>
        cases res with
        | error e => rfl
        | ok r' => exact ih (i + 1) r' s' (by omega)
    · unfold ArrayProd.loop
      rw [dif_neg h, List.drop_eq_nil_of_le (by omega)]
      rfl

/-- C10: when the single argument evaluates to a non-empty array, the call
returns the left-to-right product of the elements starting from element 0,
folded with `handle_mul_op`; when the array is empty, the call returns the
error produced by accessing element 0 and the state is unchanged. -/
theorem c10_arrayprod (mul : Object → Object → σ → Except ε Object × σ)
    (getErr : Nat → ε) (contents : List Object) (s : σ) :
    (∀ x xs, contents = x :: xs →
      ArrayProd.call mul contents getErr s = foldMulSpec mul x xs s) ∧
    (contents = [] →
      ArrayProd.call mul contents getErr s = (.error (getErr 0), s)) := by
  constructor
  · intro x xs hc
    subst hc
    unfold ArrayProd.call
    simp only [arrGet, List.get?]
    rw [ArrayProd.loop_eq_foldMulSpec mul (x :: xs) getErr ((x :: xs).length - 1)
      1 x s le_rfl]
    rfl
  · intro hc
    subst hc
    rfl

end ArrayProdSection

/-- Witness for C10: the product of `[2, 3, 4]` with a multiplication that
also counts its invocations in the state folds to `24` in two steps. -/
theorem c10_arrayprod_witness :
    ArrayProd.call (σ := Nat) (ε := Nat)
      (fun r x s => (Except.ok (r * x), s + 1)) [2, 3, 4] (fun i => i) 0 =
      (Except.ok 24, 2) := by
  have h := (c10_arrayprod (fun r x s => (Except.ok (r * x), s + 1))
    (fun i => i) [2, 3, 4] 0).1 2 [3, 4] rfl
  simpa [foldMulSpec] using h
